import Mathlib

/-!
Verification development for the FairRide ride-hailing application.

This file gives a shallow embedding of the ride lifecycle, the cancellation
fee computation, the ETA computation, the pricing fallback and discount
logic, and the nearby-driver dispatch finder, translated from the
TypeScript sources, together with theorems checking the specification
claims against these definitions.

Conventions:
- JavaScript numbers are modelled as exact rationals; Math.round is
  round-half-up (towards positive infinity), which is what Math.round does
  on the non-negative values arising here and on negative halves.
- Database reads/writes are modelled as pure state transformations; each
  conditional update is an atomic step on the ride row.
- Haversine distances are transcendental, so the functions that consume
  them take the computed distance (a rational) as a parameter; the selection
  and fee logic downstream of the distance computation is embedded exactly.
-/

namespace FairRide

/-- Model of JavaScript Math.round: round half towards positive infinity. -/
def jsRound (q : ℚ) : ℤ := ⌊q + 1/2⌋

/-- Model of the idiom Math.round(x * 100) / 100: round to cent precision. -/
def round2 (q : ℚ) : ℚ := (jsRound (q * 100) : ℚ) / 100

/-- Ride lifecycle status. The rides table constrains status to exactly this
closed set (CHECK constraint in the initial schema migration). -/
inductive RideStatus where
  | pending
  | accepted
  | arriving
  | inProgress
  | completed
  | cancelled
deriving DecidableEq, Repr

open RideStatus

/-- Translation of calculateCancellationFee
(src/src/components/customer/RideTracking.tsx, lines 179-214).

The caller guarantees a ride and a driver location are present (the
function returns 0 otherwise).  Parameters:
- status, price: the ride row fields;
- totalDistance: ride.distance_km when set and non-zero, otherwise the
  haversine pickup-to-dropoff distance (the JavaScript or-fallback);
- distanceToPickup: haversine distance from the driver location to pickup;
- distanceToDropoff: haversine distance from the driver location to dropoff.

Branch order is exactly the source order: the pending check, then the
distance-to-pickup check, then the arriving and in-progress checks. -/
def calculateCancellationFee (status : RideStatus)
    (price totalDistance distanceToPickup distanceToDropoff : ℚ) : ℚ :=
  if status = pending then 0
  else if 2 < distanceToPickup then
    round2 (max 0 (5 - distanceToPickup) * 1.5)
  else if status = arriving then
    round2 (price * 0.3)
  else if status = inProgress then
    round2 (price * max 0.5 (1 - distanceToDropoff / totalDistance))
  else 0

/-- The cancellation fee as the specification words it (section 4.1.1 and
claim C4): 0 when pending; the proportional formula for every in-progress
ride; otherwise the distance compensation when the driver is farther than
2 km from pickup; otherwise the 30 percent flat fee when arriving.  This
definition follows the claim text, for comparison with the source
definition above. -/
def specCancellationFee (status : RideStatus)
    (price totalDistance distanceToPickup distanceToDropoff : ℚ) : ℚ :=
  if status = pending then 0
  else if status = inProgress then
    round2 (price * max 0.5 (1 - distanceToDropoff / totalDistance))
  else if 2 < distanceToPickup then
    round2 (max 0 (5 - distanceToPickup) * 1.5)
  else if status = arriving then
    round2 (price * 0.3)
  else 0

/-- Customer-side ETA (RideTracking.tsx, line 127):
Math.max(1, Math.round(distance * 3)). -/
def customerEta (distanceKm : ℚ) : ℤ := max 1 (jsRound (distanceKm * 3))

/-- Driver-side ETA (src/src/components/driver/ActiveRide.tsx, line 82):
Math.round(distance * 3), with no minimum applied. -/
def driverEta (distanceKm : ℚ) : ℤ := jsRound (distanceKm * 3)

/-- Target selection shared by both ETA computations (RideTracking.tsx
lines 123-125, ActiveRide.tsx lines 77-79): pickup while the status is
arriving or accepted, dropoff otherwise. -/
def etaTargetIsPickup (status : RideStatus) : Bool :=
  status == arriving || status == accepted

/-- A discount actually applied to a booking, with its amount.  The source
represents this as an object holding a German UI label and an amount; the
label is abstracted to a constructor. -/
inductive AppliedDiscount where
  | firstRideFree (amount : ℚ)
  | dayPromo (amount : ℚ)
deriving DecidableEq, Repr

/-- The option holds a first-ride-free discount. -/
def appliesFirstRide (o : Option AppliedDiscount) : Prop :=
  ∃ a, o = some (AppliedDiscount.firstRideFree a)

/-- The option holds a day-promotion discount. -/
def appliesDayPromo (o : Option AppliedDiscount) : Prop :=
  ∃ a, o = some (AppliedDiscount.dayPromo a)

/-- Local fallback price of the booking client (src/unnamed/part_003,
lines 166-168): basePrice 3.5 plus 1.5 per km, no time or fuel term. -/
def fallbackPrice (distance_km : ℚ) : ℚ := 3.5 + distance_km * 1.5

/-- Fallback price computed inside the calculate-price edge function when
the AI reply is unusable (src/unnamed/part_015, lines 140-147): base 3.5,
1.5 per km, plus 0.3 per minute, rounded to cents. -/
def serverFallbackPrice (distance_km duration_minutes : ℚ) : ℚ :=
  round2 (3.5 + distance_km * 1.5 + duration_minutes * 0.3)

/-- Discount application on the remote-priced path of calculateAIPrice
(src/unnamed/part_003, lines 140-162).  Inputs: whether a profile object is
loaded, its first_ride_used flag, the isTodayDiscount constant (true in the
source), and the base price returned by the remote call.  Output: the
displayed price (rounded to cents as in the source) and the discount
applied, if any. -/
def calculateAIPriceRemote (hasProfile firstRideUsed isTodayDiscount : Bool)
    (basePrice : ℚ) : ℚ × Option AppliedDiscount :=
  if hasProfile = true ∧ firstRideUsed = false ∧ basePrice < 20 then
    (round2 0, some (AppliedDiscount.firstRideFree basePrice))
  else if isTodayDiscount = true then
    (round2 (basePrice - basePrice * 0.3), some (AppliedDiscount.dayPromo (basePrice * 0.3)))
  else
    (round2 basePrice, none)

/-- Discount application on the local fallback path of calculateAIPrice
(src/unnamed/part_003, lines 163-181): the base price is the local fallback
formula, then the same discount cascade is applied. -/
def calculateAIPriceFallback (hasProfile firstRideUsed isTodayDiscount : Bool)
    (distance : ℚ) : ℚ × Option AppliedDiscount :=
  let price := fallbackPrice distance
  if hasProfile = true ∧ firstRideUsed = false ∧ price < 20 then
    (round2 0, some (AppliedDiscount.firstRideFree price))
  else if isTodayDiscount = true then
    (round2 (price - price * 0.3), some (AppliedDiscount.dayPromo (price * 0.3)))
  else
    (round2 price, none)

/-- One online driver together with the haversine distance from the pickup
point to the driver's current location, as computed by the nearby-drivers
edge function before filtering.  The distance is passed in because the
haversine itself is transcendental; the selection logic downstream is
embedded exactly. -/
structure DriverEntry where
  driver_id : ℕ
  dist : ℚ
deriving DecidableEq, Repr

/-- Model of the JavaScript expression (e.distance_km || 999): the number 0
is falsy, so a distance of exactly 0 is replaced by 999. -/
def distOr999 (e : DriverEntry) : ℚ := if e.dist = 0 then 999 else e.dist

/-- Core of the nearby-drivers edge function (src/unnamed/part_015,
lines 236-268): drop excluded drivers, sort ascending by
(distance_km || 999) with a stable sort, filter to the 5 km tier, widening
to 15 km and then to everyone when a tier is empty, and return at most the
first 5.  The input list holds every online driver that has a location
row. -/
def driversWithDistance (locations : List DriverEntry)
    (exclude_driver_ids : List ℕ) : List DriverEntry :=
  (locations.filter (fun e => !(exclude_driver_ids.contains e.driver_id))).mergeSort
    (fun a b => distOr999 a ≤ distOr999 b)

/-- Tier selection and truncation of the nearby-drivers edge function:
the 5 km tier, widening to 15 km and then to everyone when a tier is
empty, and at most the first 5 of the selected tier. -/
def findNearbyDrivers (locations : List DriverEntry)
    (exclude_driver_ids : List ℕ) : List DriverEntry :=
  let dw := driversWithDistance locations exclude_driver_ids
  let tier1 := dw.filter (fun e => distOr999 e ≤ 5)
  let tier2 := dw.filter (fun e => distOr999 e ≤ 15)
  let selected := if tier1.isEmpty then (if tier2.isEmpty then dw else tier2) else tier1
  selected.take 5

/-- The ride row fields driven by the lifecycle operations.  Identifiers and
timestamps are opaque naturals; geometry and address fields do not
influence the lifecycle and are omitted. -/
structure RideRow where
  status : RideStatus
  driver_id : Option ℕ
  first_ride_discount : Bool
  accepted_at : Option ℕ
  started_at : Option ℕ
  completed_at : Option ℕ
  cancelled_at : Option ℕ
  cancellation_fee : Option ℚ
deriving DecidableEq, Repr

open RideStatus

/-- A freshly booked ride as inserted by handleBookRide
(src/unnamed/part_003, lines 224-244): status pending, no driver, no
lifecycle timestamps.  The first-ride flag of a generic booking is left
false here; the booking path that computes it is handleBookRide below. -/
def bookedRide : RideRow :=
  { status := pending
    driver_id := none
    first_ride_discount := false
    accepted_at := none
    started_at := none
    completed_at := none
    cancelled_at := none
    cancellation_fee := none }

/-- Translation of handleAcceptRide (src/unnamed/part_007, lines 198-219):
a single conditional update, WHERE id = ride AND status = 'pending',
setting driver_id, status = 'accepted' and accepted_at.  Returns the row
after the update and whether a row was affected; when the guard fails the
row is untouched and no error is raised. -/
def handleAcceptRide (driverId t : ℕ) (r : RideRow) : RideRow × Bool :=
  if r.status = pending then
    ({ r with driver_id := some driverId, status := accepted, accepted_at := some t }, true)
  else
    (r, false)

/-- Run a sequence of claim attempts, each an atomic conditional update, in
the given interleaving order; returns the final row and the per-attempt
success flags in order. -/
def runClaims (attempts : List (ℕ × ℕ)) (r : RideRow) : RideRow × List Bool :=
  match attempts with
  | [] => (r, [])
  | (d, t) :: rest =>
    let step := handleAcceptRide d t r
    let res := runClaims rest step.1
    (res.1, step.2 :: res.2)

/-- Translation of getNextAction (ActiveRide.tsx, lines 159-170): the next
status the driver UI offers from the driver's locally held status. -/
def getNextAction : RideStatus → Option RideStatus
  | accepted => some arriving
  | arriving => some inProgress
  | inProgress => some completed
  | _ => none

/-- Translation of updateRideStatus (ActiveRide.tsx, lines 116-128): an
update by ride id alone, not conditioned on the current status and not
conditioned on the requesting driver; sets started_at when the new status
is in_progress and completed_at when it is completed. -/
def updateRideStatus (newStatus : RideStatus) (t : ℕ) (r : RideRow) : RideRow :=
  { r with
    status := newStatus
    started_at := if newStatus = inProgress then some t else r.started_at
    completed_at := if newStatus = completed then some t else r.completed_at }

/-- Translation of handleCancelRide (RideTracking.tsx, lines 216-239): an
update by ride id alone, setting status = 'cancelled', cancelled_at and the
cancellation fee, not conditioned on the current status. -/
def handleCancelRide (fee : ℚ) (t : ℕ) (r : RideRow) : RideRow :=
  { r with status := cancelled, cancelled_at := some t, cancellation_fee := some fee }

/-- Statuses in which the customer tracking UI offers the cancel action
(RideTracking.tsx: the pending screen has a free-cancel button, and the
cancel dialog is rendered for accepted, arriving and in_progress). -/
def customerCanCancel (s : RideStatus) : Prop :=
  s = pending ∨ s = accepted ∨ s = arriving ∨ s = inProgress

/-- State of one ride's world: the authoritative ride row, plus the status
last observed by the assigned driver's client (its activeRide/rideState)
and by the customer's client.  The views are what the clients' guards are
evaluated against; each may lag behind the row until the next realtime
event or refetch. -/
structure Sys where
  ride : RideRow
  driverView : Option RideStatus
  customerView : Option RideStatus
deriving DecidableEq, Repr

/-- World state right after booking: pending row, the customer tracking
screen showing pending, no driver attached. -/
def bookedSys : Sys :=
  { ride := bookedRide, driverView := none, customerView := some pending }

/-- One atomic step of the system: a successful claim, a realtime view
refresh for either client, a driver status advance, or a customer
cancellation.  The advance and cancel updates are unconditional on the row
(matching the source); their only guards are the issuing client's local
view.  A lost claim leaves the row untouched (handleAcceptRide with a
non-pending row) and is omitted as a no-op step. -/
inductive Step : Sys → Sys → Prop where
  | claim (d t : ℕ) (s : Sys) (h : s.ride.status = pending) :
      Step s { ride := (handleAcceptRide d t s.ride).1
               driverView := some accepted
               customerView := s.customerView }
  | driverSync (s : Sys) :
      Step s { s with driverView := some s.ride.status }
  | customerSync (s : Sys) :
      Step s { s with customerView := some s.ride.status }
  | advance (t : ℕ) (s : Sys) (v tgt : RideStatus)
      (hv : s.driverView = some v) (ha : getNextAction v = some tgt) :
      Step s { ride := updateRideStatus tgt t s.ride
               driverView := some tgt
               customerView := s.customerView }
  | cancel (fee : ℚ) (t : ℕ) (s : Sys) (v : RideStatus)
      (hv : s.customerView = some v) (hc : customerCanCancel v) :
      Step s { ride := handleCancelRide fee t s.ride
               driverView := s.driverView
               customerView := some cancelled }

/-- States reachable from a fresh booking by the public operations. -/
def Reachable (s : Sys) : Prop := Relation.ReflTransGen Step bookedSys s

/-- The transitions the specification's section 4.1 table allows. -/
def allowedTransition (a b : RideStatus) : Prop :=
  (a = pending ∧ b = accepted) ∨
  (a = accepted ∧ b = arriving) ∨
  (a = arriving ∧ b = inProgress) ∨
  (a = inProgress ∧ b = completed) ∨
  (a ≠ completed ∧ a ≠ cancelled ∧ b = cancelled)

/-- The customer profile fields involved in the first-ride discount. -/
structure Profile where
  first_ride_used : Bool
deriving DecidableEq, Repr

/-- Translation of handleBookRide (src/unnamed/part_003, lines 203-266),
restricted to the fields that drive the first-ride discount: the booking
client (which always has a loaded profile when the book button is enabled)
inserts a pending ride whose first_ride_discount records whether the
first-ride condition held, and in the same operation marks the profile's
first_ride_used flag when the discount applied.  originalPrice is the
possibly-null undiscounted price; (originalPrice || 0) is its JavaScript
or-default, which getD 0 matches because 0 defaults to 0 either way. -/
def handleBookRide (p : Profile) (originalPrice : Option ℚ) : RideRow × Profile :=
  let isFirstRideFree : Bool := !p.first_ride_used && decide (originalPrice.getD 0 < 20)
  ({ bookedRide with first_ride_discount := isFirstRideFree },
   if isFirstRideFree then { p with first_ride_used := true } else p)

/-- A customer books a sequence of rides one after the other; returns the
final profile and each booked ride's first_ride_discount flag in order. -/
def bookSequence (p : Profile) (prices : List (Option ℚ)) : Profile × List Bool :=
  match prices with
  | [] => (p, [])
  | pr :: rest =>
    let step := handleBookRide p pr
    let res := bookSequence step.2 rest
    (res.1, step.1.first_ride_discount :: res.2)

/-! Arithmetic facts about the rounding helpers. -/

lemma jsRound_mono {q r : ℚ} (h : q ≤ r) : jsRound q ≤ jsRound r :=
  Int.floor_mono (by linarith)

lemma jsRound_nonneg {q : ℚ} (h : 0 ≤ q) : 0 ≤ jsRound q :=
  Int.le_floor.mpr (by push_cast; linarith)

lemma round2_mono {q r : ℚ} (h : q ≤ r) : round2 q ≤ round2 r := by
  unfold round2
  have h1 : jsRound (q * 100) ≤ jsRound (r * 100) := jsRound_mono (by linarith)
  have h2 : ((jsRound (q * 100) : ℤ) : ℚ) ≤ ((jsRound (r * 100) : ℤ) : ℚ) := by
    exact_mod_cast h1
  linarith

lemma round2_nonneg {q : ℚ} (h : 0 ≤ q) : 0 ≤ round2 q := by
  unfold round2
  have h1 : 0 ≤ jsRound (q * 100) := jsRound_nonneg (by linarith)
  have h2 : (0 : ℚ) ≤ ((jsRound (q * 100) : ℤ) : ℚ) := by exact_mod_cast h1
  linarith

lemma jsRound_natCast_add_half (c : ℕ) : ⌊(c : ℚ) + 1/2⌋ = c := by
  rw [Int.floor_eq_iff]
  constructor
  · push_cast; linarith
  · push_cast; linarith

lemma round2_le_nat {q : ℚ} {c : ℕ} (h : q * 100 ≤ c) : round2 q ≤ (c : ℚ) / 100 := by
  unfold round2
  have h1 : jsRound (q * 100) ≤ (c : ℤ) := by
    unfold jsRound
    calc ⌊q * 100 + 1/2⌋ ≤ ⌊(c : ℚ) + 1/2⌋ := Int.floor_mono (by linarith)
    _ = c := jsRound_natCast_add_half c
  have h2 : ((jsRound (q * 100) : ℤ) : ℚ) ≤ (c : ℚ) := by exact_mod_cast h1
  linarith

lemma round2_le_of_lt_ninehalf {q : ℚ} (h : q < 4.5) : round2 q ≤ 4.5 := by
  unfold round2
  have h1 : jsRound (q * 100) ≤ (450 : ℤ) := by
    unfold jsRound
    have h0 : ⌊q * 100 + 1/2⌋ < (451 : ℤ) := by
      rw [Int.floor_lt]
      push_cast
      nlinarith
    omega
  have h2 : ((jsRound (q * 100) : ℤ) : ℚ) ≤ (450 : ℚ) := by exact_mod_cast h1
  rw [show (4.5 : ℚ) = 450 / 100 by norm_num]
  linarith

lemma half_le_round2_half (c : ℕ) : (c : ℚ) / 100 / 2 ≤ round2 ((c : ℚ) / 100 * (1/2)) := by
  unfold round2
  have harg : (c : ℚ) / 100 * (1/2) * 100 = (c : ℚ) / 2 := by ring
  rw [harg]
  unfold jsRound
  have h1 : ((c : ℚ)/2 + 1/2) - 1 < (⌊(c : ℚ)/2 + 1/2⌋ : ℚ) := Int.sub_one_lt_floor _
  have h2 : ((c : ℤ) : ℚ) < 2 * (⌊(c : ℚ)/2 + 1/2⌋ : ℚ) + 1 := by push_cast; linarith
  have h3 : (c : ℤ) < 2 * ⌊(c : ℚ)/2 + 1/2⌋ + 1 := by exact_mod_cast h2
  have h4 : (c : ℤ) ≤ 2 * ⌊(c : ℚ)/2 + 1/2⌋ := by omega
  have h5 : ((c : ℤ) : ℚ) ≤ 2 * (⌊(c : ℚ)/2 + 1/2⌋ : ℚ) := by exact_mod_cast h4
  push_cast at h5
  linarith

/-! Claim C4: the cancellation fee against the section 4.1.1 policy. -/

/-- C4 counterexample: an in-progress ride whose driver is 3 km from pickup
(price 20, route 10 km, 5 km left to dropoff).  The source charges the
distance-to-pickup compensation, 3.00, while the claimed policy value is
price times max(0.5, proportion) = 10.00; in particular the claimed
50-percent floor for every in-progress cancellation fails. -/
theorem claim_C4_counterexample :
    calculateCancellationFee inProgress 20 10 3 5 = 3 ∧
    specCancellationFee inProgress 20 10 3 5 = 10 ∧
    ((3 : ℚ) ≠ 10) ∧
    ¬((1/2) * 20 ≤ calculateCancellationFee inProgress 20 10 3 5) := by
  have hfee : calculateCancellationFee inProgress 20 10 3 5 = 3 := by
    simp only [calculateCancellationFee]
    rw [if_neg (by decide), if_pos (by norm_num : (2 : ℚ) < 3)]
    norm_num [round2, jsRound, max_def]
  have hspec : specCancellationFee inProgress 20 10 3 5 = 10 := by
    simp only [specCancellationFee]
    rw [if_neg (by decide), if_pos trivial]
    norm_num [round2, jsRound, max_def]
  refine ⟨hfee, hspec, by norm_num, ?_⟩
  rw [hfee]
  norm_num

/-- C4 (corrected): the source fee equals the claimed policy value in every
case except an in-progress ride whose driver is farther than 2 km from
pickup, where the distance-to-pickup branch shadows the proportional
branch; consequently the 50-percent floor holds for in-progress
cancellations with the driver within 2 km of pickup.  Prices are cent
amounts (the rides table stores price as NUMERIC(10,2)). -/
theorem claim_C4_theorem (status : RideStatus) (price total dtp dtd : ℚ) (c : ℕ)
    (hp : price = (c : ℚ) / 100) :
    ((status ≠ inProgress ∨ dtp ≤ 2) →
      calculateCancellationFee status price total dtp dtd =
        specCancellationFee status price total dtp dtd) ∧
    (status = inProgress → dtp ≤ 2 →
      price / 2 ≤ calculateCancellationFee status price total dtp dtd) := by
  have hprice0 : 0 ≤ price := by rw [hp]; positivity
  constructor
  · intro hcase
    cases status <;>
      simp only [calculateCancellationFee, specCancellationFee, reduceCtorEq,
        if_false, if_true, ite_self, reduceIte]
    case inProgress =>
      rcases hcase with h | h
      · exact absurd rfl h
      · rw [if_neg (not_lt.mpr h)]
  · intro hst hdtp
    subst hst
    have hfee : calculateCancellationFee inProgress price total dtp dtd =
        round2 (price * max 0.5 (1 - dtd / total)) := by
      simp only [calculateCancellationFee, reduceCtorEq, if_false, reduceIte,
        if_neg (not_lt.mpr hdtp)]
    rw [hfee]
    have hhalf : price * (1/2) ≤ price * max 0.5 (1 - dtd / total) := by
      have : (1/2 : ℚ) ≤ max 0.5 (1 - dtd / total) := by
        rw [show (0.5 : ℚ) = 1/2 by norm_num] at *
        exact le_max_left _ _
      exact mul_le_mul_of_nonneg_left this hprice0
    calc price / 2 = (c : ℚ) / 100 / 2 := by rw [hp]
    _ ≤ round2 ((c : ℚ) / 100 * (1/2)) := half_le_round2_half c
    _ = round2 (price * (1/2)) := by rw [hp]
    _ ≤ round2 (price * max 0.5 (1 - dtd / total)) := round2_mono hhalf

/-- C4 witness: the corrected theorem applied at concrete inputs, once on
an arriving ride and once on an in-progress ride within 2 km of pickup. -/
theorem claim_C4_witness :
    calculateCancellationFee arriving 10 5 1 3 = specCancellationFee arriving 10 5 1 3 ∧
    (10 : ℚ) / 2 ≤ calculateCancellationFee inProgress 10 5 1 3 :=
  ⟨(claim_C4_theorem arriving 10 5 1 3 1000 (by norm_num)).1 (Or.inl (by decide)),
   (claim_C4_theorem inProgress 10 5 1 3 1000 (by norm_num)).2 rfl (by norm_num)⟩

/-! Claim C5: monotonicity and bounds of the cancellation fee. -/

/-- C5 counterexample: an accepted ride of price 3.65 with the driver
2.5 km from pickup is charged round(2.5 x 1.5) = 3.75, which exceeds the
ride price, so the fee does not always lie in the interval from 0 to the
price. -/
theorem claim_C5_counterexample :
    calculateCancellationFee accepted (73/20) 10 (5/2) 10 = 15/4 ∧
    ¬(calculateCancellationFee accepted (73/20) 10 (5/2) 10 ≤ 73/20) := by
  have hfee : calculateCancellationFee accepted (73/20) 10 (5/2) 10 = 15/4 := by
    simp only [calculateCancellationFee]
    rw [if_neg (by decide), if_pos (by norm_num : (2 : ℚ) < 5/2)]
    norm_num [round2, jsRound, max_def]
  refine ⟨hfee, ?_⟩
  rw [hfee]
  norm_num

/-- C5 (corrected): for a fixed driver position and ride geometry the fee
is monotone non-decreasing across accepted, arriving, in_progress, and for
every status it lies in the interval from 0 to max(price, 4.50) — the
distance-to-pickup branch is bounded by 4.50 but can exceed a small ride
price, so the claimed upper bound of the price itself is too strong. -/
theorem claim_C5_theorem (price total dtp dtd : ℚ) (c : ℕ)
    (hp : price = (c : ℚ) / 100) (htotal : 0 < total) (hdtd : 0 ≤ dtd) :
    (calculateCancellationFee accepted price total dtp dtd ≤
       calculateCancellationFee arriving price total dtp dtd ∧
     calculateCancellationFee arriving price total dtp dtd ≤
       calculateCancellationFee inProgress price total dtp dtd) ∧
    (∀ status : RideStatus,
       0 ≤ calculateCancellationFee status price total dtp dtd ∧
       calculateCancellationFee status price total dtp dtd ≤ max price 4.5) := by
  have hprice0 : 0 ≤ price := by rw [hp]; positivity
  have hmax05 : (0.5 : ℚ) ≤ max 0.5 (1 - dtd / total) := le_max_left _ _
  have hmax1 : max 0.5 (1 - dtd / total) ≤ 1 := by
    apply max_le (by norm_num)
    have : 0 ≤ dtd / total := div_nonneg hdtd htotal.le
    linarith
  constructor
  · by_cases h2 : 2 < dtp
    · simp only [calculateCancellationFee, reduceCtorEq, if_false, reduceIte, if_pos h2]
      exact ⟨le_refl _, le_refl _⟩
    · simp only [calculateCancellationFee, reduceCtorEq, if_false, reduceIte,
        if_neg h2]
      constructor
      · exact round2_nonneg (by nlinarith)
      · apply round2_mono
        nlinarith [hmax05]
  · intro status
    have hdistfee : 0 ≤ round2 (max 0 (5 - dtp) * 1.5) :=
      round2_nonneg (by positivity)
    have hdistfee45 : 2 < dtp → round2 (max 0 (5 - dtp) * 1.5) ≤ max price 4.5 := by
      intro h2
      refine le_trans (round2_le_of_lt_ninehalf ?_) (le_max_right _ _)
      have : max 0 (5 - dtp) < 3 := max_lt (by norm_num) (by linarith)
      nlinarith
    have hpricefee : round2 (price * max 0.5 (1 - dtd / total)) ≤ max price 4.5 := by
      refine le_trans ?_ (le_max_left _ _)
      rw [hp]
      apply round2_le_nat
      have : (c : ℚ) / 100 * max 0.5 (1 - dtd / total) ≤ (c : ℚ) / 100 := by
        nlinarith [hmax05, hmax1, show (0 : ℚ) ≤ (c : ℚ) / 100 by positivity]
      linarith
    have harrfee : round2 (price * 0.3) ≤ max price 4.5 := by
      refine le_trans ?_ (le_max_left _ _)
      rw [hp]
      apply round2_le_nat
      have : 0 ≤ (c : ℚ) / 100 := by positivity
      nlinarith
    cases status <;>
      simp only [calculateCancellationFee, reduceCtorEq, if_false, if_true, reduceIte]
    case pending =>
      exact ⟨le_refl _, le_max_of_le_right (by norm_num)⟩
    case accepted =>
      by_cases h2 : 2 < dtp
      · rw [if_pos h2]; exact ⟨hdistfee, hdistfee45 h2⟩
      · rw [if_neg h2]; exact ⟨le_refl _, le_max_of_le_right (by norm_num)⟩
    case arriving =>
      by_cases h2 : 2 < dtp
      · rw [if_pos h2]; exact ⟨hdistfee, hdistfee45 h2⟩
      · rw [if_neg h2]
        exact ⟨round2_nonneg (by nlinarith), harrfee⟩
    case inProgress =>
      by_cases h2 : 2 < dtp
      · rw [if_pos h2]; exact ⟨hdistfee, hdistfee45 h2⟩
      · rw [if_neg h2]
        exact ⟨round2_nonneg (by nlinarith), hpricefee⟩
    case completed =>
      by_cases h2 : 2 < dtp
      · rw [if_pos h2]; exact ⟨hdistfee, hdistfee45 h2⟩
      · rw [if_neg h2]; exact ⟨le_refl _, le_max_of_le_right (by norm_num)⟩
    case cancelled =>
      by_cases h2 : 2 < dtp
      · rw [if_pos h2]; exact ⟨hdistfee, hdistfee45 h2⟩
      · rw [if_neg h2]; exact ⟨le_refl _, le_max_of_le_right (by norm_num)⟩

/-- C5 witness: the corrected theorem at concrete inputs (price 10,
route 10 km, driver 1 km from pickup, 5 km from dropoff). -/
theorem claim_C5_witness :
    calculateCancellationFee accepted 10 10 1 5 ≤
      calculateCancellationFee arriving 10 10 1 5 ∧
    0 ≤ calculateCancellationFee cancelled 10 10 1 5 :=
  ⟨((claim_C5_theorem 10 10 1 5 1000 (by norm_num) (by norm_num) (by norm_num)).1).1,
   ((claim_C5_theorem 10 10 1 5 1000 (by norm_num) (by norm_num) (by norm_num)).2 cancelled).1⟩

/-! Claim C6: the ETA computations. -/

/-- C6 counterexample: with the driver exactly at the target (distance 0,
which also occurs for any distance below one sixth of a kilometre) the
driver-side ETA is 0, so the claimed minimum of one minute does not hold in
the driver-side computation. -/
theorem claim_C6_counterexample :
    driverEta 0 = 0 ∧ customerEta 0 = 1 ∧ ¬(1 ≤ driverEta 0) := by
  refine ⟨?_, ?_, ?_⟩ <;> norm_num [driverEta, customerEta, jsRound]

/-- C6 (corrected): the ETA is the target distance converted at 3 minutes
per kilometre and rounded; the one-minute minimum is applied in the
customer-side computation only.  The driver-side ETA is never negative for
a non-negative distance but carries no minimum (it is the unclamped value
inside the customer-side maximum), and both components pick the target per
the table: pickup while accepted or arriving, dropoff while in progress. -/
theorem claim_C6_theorem (d : ℚ) (hd : 0 ≤ d) :
    1 ≤ customerEta d ∧
    0 ≤ driverEta d ∧
    customerEta d = max 1 (driverEta d) ∧
    etaTargetIsPickup accepted = true ∧
    etaTargetIsPickup arriving = true ∧
    etaTargetIsPickup inProgress = false := by
  refine ⟨le_max_left _ _, jsRound_nonneg (by linarith), rfl, rfl, rfl, rfl⟩

/-- C6 witness: the corrected theorem applied at a concrete distance of
2 km (customer ETA 6 minutes, at least 1; driver ETA non-negative). -/
theorem claim_C6_witness : 1 ≤ customerEta 2 ∧ 0 ≤ driverEta 2 :=
  ⟨(claim_C6_theorem 2 (by norm_num)).1, (claim_C6_theorem 2 (by norm_num)).2.1⟩

/-! Claim C8: the pricing fallback formulas. -/

/-- C8 counterexample: for a 10 km, 30 minute ride the fallback computed
inside the calculate-price edge function (cited by the claim) is
3.5 + 10 x 1.5 + 30 x 0.3 = 27.50, not the claimed time-free formula
3.5 + 10 x 1.5 = 18.50. -/
theorem claim_C8_counterexample :
    serverFallbackPrice 10 30 = 55/2 ∧
    fallbackPrice 10 = 37/2 ∧
    serverFallbackPrice 10 30 ≠ fallbackPrice 10 := by
  refine ⟨?_, ?_, ?_⟩ <;> norm_num [serverFallbackPrice, fallbackPrice, round2, jsRound]

/-- C8 (corrected): the booking client's local fallback price is exactly
3.5 + 1.5 per km with no time or fuel term, while the edge function's own
fallback (when the AI reply is unusable) additionally charges 0.3 per
minute; both are non-negative for non-negative distance and duration, so
neither path blocks booking. -/
theorem claim_C8_theorem (d m : ℚ) (hd : 0 ≤ d) (hm : 0 ≤ m) :
    fallbackPrice d = 3.5 + d * 1.5 ∧
    0 ≤ fallbackPrice d ∧
    serverFallbackPrice d m = round2 (fallbackPrice d + m * 0.3) ∧
    0 ≤ serverFallbackPrice d m := by
  refine ⟨rfl, ?_, ?_, ?_⟩
  · unfold fallbackPrice; nlinarith
  · unfold serverFallbackPrice fallbackPrice; ring_nf
  · exact round2_nonneg (by nlinarith)

/-- C8 witness: the corrected theorem at distance 10 km, duration 30
minutes. -/
theorem claim_C8_witness : 0 ≤ fallbackPrice 10 ∧ 0 ≤ serverFallbackPrice 10 30 :=
  ⟨(claim_C8_theorem 10 30 (by norm_num) (by norm_num)).2.1,
   (claim_C8_theorem 10 30 (by norm_num) (by norm_num)).2.2.2⟩

/-! Claim C7: discount priority and mutual exclusion. -/

/-- C7 (confirmed): on both the remote-priced path and the local fallback
path, a booking with a loaded profile gets the first-ride-free discount
(displayed price 0) exactly when the first-ride flag is unused and the
undiscounted price is under 20, otherwise the day promotion exactly when it
is active, and the two discounts are never applied together. -/
theorem claim_C7_theorem (firstRideUsed isTodayDiscount : Bool) (base d : ℚ) :
    (appliesFirstRide (calculateAIPriceRemote true firstRideUsed isTodayDiscount base).2 ↔
      firstRideUsed = false ∧ base < 20) ∧
    (appliesFirstRide (calculateAIPriceRemote true firstRideUsed isTodayDiscount base).2 →
      (calculateAIPriceRemote true firstRideUsed isTodayDiscount base).1 = 0) ∧
    (appliesDayPromo (calculateAIPriceRemote true firstRideUsed isTodayDiscount base).2 ↔
      ¬(firstRideUsed = false ∧ base < 20) ∧ isTodayDiscount = true) ∧
    ¬(appliesFirstRide (calculateAIPriceRemote true firstRideUsed isTodayDiscount base).2 ∧
      appliesDayPromo (calculateAIPriceRemote true firstRideUsed isTodayDiscount base).2) ∧
    (appliesFirstRide (calculateAIPriceFallback true firstRideUsed isTodayDiscount d).2 ↔
      firstRideUsed = false ∧ fallbackPrice d < 20) ∧
    (appliesFirstRide (calculateAIPriceFallback true firstRideUsed isTodayDiscount d).2 →
      (calculateAIPriceFallback true firstRideUsed isTodayDiscount d).1 = 0) ∧
    (appliesDayPromo (calculateAIPriceFallback true firstRideUsed isTodayDiscount d).2 ↔
      ¬(firstRideUsed = false ∧ fallbackPrice d < 20) ∧ isTodayDiscount = true) ∧
    ¬(appliesFirstRide (calculateAIPriceFallback true firstRideUsed isTodayDiscount d).2 ∧
      appliesDayPromo (calculateAIPriceFallback true firstRideUsed isTodayDiscount d).2) := by
  have hzero : round2 0 = 0 := by norm_num [round2, jsRound]
  have key : ∀ base : ℚ,
      (appliesFirstRide (calculateAIPriceRemote true firstRideUsed isTodayDiscount base).2 ↔
        firstRideUsed = false ∧ base < 20) ∧
      (appliesFirstRide (calculateAIPriceRemote true firstRideUsed isTodayDiscount base).2 →
        (calculateAIPriceRemote true firstRideUsed isTodayDiscount base).1 = 0) ∧
      (appliesDayPromo (calculateAIPriceRemote true firstRideUsed isTodayDiscount base).2 ↔
        ¬(firstRideUsed = false ∧ base < 20) ∧ isTodayDiscount = true) ∧
      ¬(appliesFirstRide (calculateAIPriceRemote true firstRideUsed isTodayDiscount base).2 ∧
        appliesDayPromo (calculateAIPriceRemote true firstRideUsed isTodayDiscount base).2) := by
    intro base
    by_cases h1 : firstRideUsed = false ∧ base < 20 <;>
      by_cases ht : isTodayDiscount = true <;>
        simp [calculateAIPriceRemote, appliesFirstRide, appliesDayPromo, h1, ht, hzero]
  have hfb : calculateAIPriceFallback true firstRideUsed isTodayDiscount d =
      calculateAIPriceRemote true firstRideUsed isTodayDiscount (fallbackPrice d) := rfl
  refine ⟨(key base).1, (key base).2.1, (key base).2.2.1, (key base).2.2.2,
    ?_, ?_, ?_, ?_⟩ <;> rw [hfb]
  exacts [(key (fallbackPrice d)).1, (key (fallbackPrice d)).2.1,
    (key (fallbackPrice d)).2.2.1, (key (fallbackPrice d)).2.2.2]

/-- C7 witness: the corrected theorem instantiated with an unused
first-ride flag and a 10 euro base price: the first-ride discount applies
and the displayed price is 0. -/
theorem claim_C7_witness :
    appliesFirstRide (calculateAIPriceRemote true false true 10).2 ∧
    (calculateAIPriceRemote true false true 10).1 = 0 := by
  have h := claim_C7_theorem false true 10 0
  have happ : appliesFirstRide (calculateAIPriceRemote true false true 10).2 :=
    h.1.mpr ⟨rfl, by norm_num⟩
  exact ⟨happ, h.2.1 happ⟩

/-! Claim C1: the claim race on a pending ride. -/

lemma handleAcceptRide_not_pending {r : RideRow} (h : r.status ≠ pending) (d t : ℕ) :
    handleAcceptRide d t r = (r, false) := by
  unfold handleAcceptRide
  rw [if_neg h]

lemma runClaims_not_pending {r : RideRow} (h : r.status ≠ pending)
    (attempts : List (ℕ × ℕ)) :
    runClaims attempts r = (r, List.replicate attempts.length false) := by
  induction attempts with
  | nil => rfl
  | cons a rest ih =>
    obtain ⟨d, t⟩ := a
    simp [runClaims, handleAcceptRide_not_pending h d t, ih, List.replicate_succ]

/-- C1 (confirmed): the claim operation is the atomic conditional update
setting driver_id, status accepted and accepted_at only while the row is
still pending; for every pending ride and every interleaving of claim
attempts, the first attempt succeeds and every later attempt is reported
unsuccessful; a losing attempt maps the row to itself (a no-op rather than
an error); exactly one attempt in the whole sequence succeeds and the final
row carries exactly the winner's driver id. -/
theorem claim_C1_theorem (d t : ℕ) (attempts : List (ℕ × ℕ)) (r : RideRow)
    (h : r.status = pending) :
    (runClaims ((d, t) :: attempts) r).1 =
      { r with driver_id := some d, status := accepted, accepted_at := some t } ∧
    (runClaims ((d, t) :: attempts) r).2 = true :: List.replicate attempts.length false ∧
    (runClaims ((d, t) :: attempts) r).2.count true = 1 ∧
    (runClaims ((d, t) :: attempts) r).1.driver_id = some d ∧
    (runClaims ((d, t) :: attempts) r).1.status = accepted ∧
    ∀ (d2 t2 : ℕ) (r2 : RideRow), r2.status ≠ pending →
      handleAcceptRide d2 t2 r2 = (r2, false) := by
  have hstep : handleAcceptRide d t r =
      ({ r with driver_id := some d, status := accepted, accepted_at := some t }, true) := by
    unfold handleAcceptRide
    rw [if_pos h]
  have hrest : runClaims attempts
        { r with driver_id := some d, status := accepted, accepted_at := some t } =
      ({ r with driver_id := some d, status := accepted, accepted_at := some t },
        List.replicate attempts.length false) :=
    runClaims_not_pending (by simp) attempts
  refine ⟨?_, ?_, ?_, ?_, ?_, fun d2 t2 r2 h2 => handleAcceptRide_not_pending h2 d2 t2⟩ <;>
    simp [runClaims, hstep, hrest, List.count_replicate]

/-- C1 witness: two drivers race on a fresh pending booking; driver 3 goes
first and wins, driver 7 observes a no-op, and the final row holds
driver 3. -/
theorem claim_C1_witness :
    (runClaims [(3, 0), (7, 1)] bookedRide).2 = [true, false] ∧
    (runClaims [(3, 0), (7, 1)] bookedRide).1.driver_id = some 3 ∧
    (runClaims [(3, 0), (7, 1)] bookedRide).1.status = accepted := by
  have h := claim_C1_theorem 3 0 [(7, 1)] bookedRide rfl
  exact ⟨by rw [h.2.1]; rfl, h.2.2.2.1, h.2.2.2.2.1⟩

/-! Claim C10: consumption of the first-ride discount at booking time. -/

lemma bookSequence_of_used (prices : List (Option ℚ)) (p : Profile)
    (h : p.first_ride_used = true) :
    (bookSequence p prices).1 = p ∧ (bookSequence p prices).2.count true = 0 := by
  induction prices with
  | nil => exact ⟨rfl, rfl⟩
  | cons pr rest ih =>
    have h1 : (handleBookRide p pr).1.first_ride_discount = false := by
      simp [handleBookRide, h]
    have h2 : (handleBookRide p pr).2 = p := by
      simp [handleBookRide, h]
    simp [bookSequence, h2, h1, ih.1, ih.2]

/-- C10 (confirmed): booking sets the customer's first_ride_used flag in
the same operation that inserts the still-pending ride (before any claim,
completion or cancellation), the flag equation shows it is set exactly when
a booking received the discount, at most one booking in any sequence of
bookings carries the first-ride discount, and cancelling a ride changes
neither the ride's recorded discount nor (cancellation being a pure ride-row
update) any profile flag — so the discount stays consumed even if the
discounted ride is cancelled and never completed. -/
theorem claim_C10_theorem (p : Profile) (prices : List (Option ℚ)) :
    (bookSequence p prices).2.count true ≤ 1 ∧
    (bookSequence p prices).1.first_ride_used =
      (p.first_ride_used || (bookSequence p prices).2.contains true) ∧
    (∀ pr : Option ℚ,
      (handleBookRide p pr).1.status = pending ∧
      (handleBookRide p pr).1.driver_id = none ∧
      (handleBookRide p pr).2.first_ride_used =
        (p.first_ride_used || (handleBookRide p pr).1.first_ride_discount)) ∧
    (∀ (fee : ℚ) (t : ℕ) (r : RideRow),
      (handleCancelRide fee t r).first_ride_discount = r.first_ride_discount) := by
  refine ⟨?_, ?_, ?_, fun fee t r => rfl⟩
  · induction prices generalizing p with
    | nil => simp [bookSequence]
    | cons pr rest ih =>
      by_cases hu : p.first_ride_used = true
      · have h1 : (handleBookRide p pr).1.first_ride_discount = false := by
          simp [handleBookRide, hu]
        have h2 : (handleBookRide p pr).2 = p := by
          simp [handleBookRide, hu]
        have hrest := bookSequence_of_used rest p hu
        simp [bookSequence, h1, h2, hrest.2]
      · have hu2 : p.first_ride_used = false := by simpa using hu
        by_cases hd : (pr.getD 0 < 20)
        · have h1 : (handleBookRide p pr).1.first_ride_discount = true := by
            simp [handleBookRide, hu2, hd]
          have h2 : (handleBookRide p pr).2 = { p with first_ride_used := true } := by
            simp [handleBookRide, hu2, hd]
          have hrest := bookSequence_of_used rest { p with first_ride_used := true } rfl
          simp [bookSequence, h1, h2, hrest.2]
        · have h1 : (handleBookRide p pr).1.first_ride_discount = false := by
            simp [handleBookRide, hu2, hd]
          have h2 : (handleBookRide p pr).2 = p := by
            simp [handleBookRide, hu2, hd]
          simpa [bookSequence, h1, h2] using ih p
  · induction prices generalizing p with
    | nil => simp [bookSequence]
    | cons pr rest ih =>
      by_cases hu : p.first_ride_used = true
      · have h1 : (handleBookRide p pr).1.first_ride_discount = false := by
          simp [handleBookRide, hu]
        have h2 : (handleBookRide p pr).2 = p := by
          simp [handleBookRide, hu]
        have hrest := bookSequence_of_used rest p hu
        simp [bookSequence, h1, h2, hrest.1, hu]
      · have hu2 : p.first_ride_used = false := by simpa using hu
        by_cases hd : (pr.getD 0 < 20)
        · have h1 : (handleBookRide p pr).1.first_ride_discount = true := by
            simp [handleBookRide, hu2, hd]
          have h2 : (handleBookRide p pr).2 = { p with first_ride_used := true } := by
            simp [handleBookRide, hu2, hd]
          have hrest := bookSequence_of_used rest { p with first_ride_used := true } rfl
          simp [bookSequence, h1, h2, hrest.1, hu2]
        · have h1 : (handleBookRide p pr).1.first_ride_discount = false := by
            simp [handleBookRide, hu2, hd]
          have h2 : (handleBookRide p pr).2 = p := by
            simp [handleBookRide, hu2, hd]
          simpa [bookSequence, h1, h2, hu2] using ih p
  · intro pr
    refine ⟨rfl, rfl, ?_⟩
    by_cases hu : p.first_ride_used = true <;> by_cases hd : (pr.getD 0 < 20) <;>
      simp [handleBookRide, hu, hd]

/-! Claim C2: the driver_id / pending invariant over reachable states. -/

/-- Inductive invariant of the step relation: a pending row has no driver, a
driverless row is pending or cancelled, and while the row has no driver the
assigned-driver view can only ever have observed pending or cancelled (so
no advance is possible). -/
def RideInv (s : Sys) : Prop :=
  (s.ride.status = pending → s.ride.driver_id = none) ∧
  (s.ride.driver_id = none → s.ride.status = pending ∨ s.ride.status = cancelled) ∧
  (s.ride.driver_id = none →
    s.driverView = none ∨ s.driverView = some pending ∨ s.driverView = some cancelled)

lemma rideInv_init : RideInv bookedSys := by
  refine ⟨fun _ => rfl, fun _ => Or.inl rfl, fun _ => Or.inl rfl⟩

lemma rideInv_step {s s2 : Sys} (h : RideInv s) (hstep : Step s s2) : RideInv s2 := by
  obtain ⟨h1, h2, h3⟩ := h
  cases hstep with
  | claim d t s hp =>
    refine ⟨?_, ?_, ?_⟩ <;> simp [handleAcceptRide, hp]
  | driverSync s =>
    refine ⟨h1, h2, fun hd => ?_⟩
    rcases h2 hd with hs | hs <;> simp [hs]
  | customerSync s =>
    exact ⟨h1, h2, h3⟩
  | advance t s v tgt hv ha =>
    have hview : ¬(s.driverView = none ∨ s.driverView = some pending ∨
        s.driverView = some cancelled) := by
      rw [hv]
      cases v <;> simp_all [getNextAction]
    have hdr : s.ride.driver_id ≠ none := fun hd => hview (h3 hd)
    have htgt : tgt ≠ pending := by
      cases v <;> simp [getNextAction] at ha <;> subst ha <;> decide
    refine ⟨?_, ?_, ?_⟩ <;> simp [updateRideStatus] <;> intro hd
    · exact absurd hd htgt
    · exact absurd hd hdr
    · exact absurd hd hdr
  | cancel fee t s v hv hc =>
    refine ⟨?_, ?_, ?_⟩ <;> simp [handleCancelRide] <;> intro hd
    exact h3 hd

/-- C2 counterexample: cancelling a still-pending booking (the free-cancel
button of the tracking screen) reaches a state whose ride has status
cancelled and driver_id still null, refuting the claimed equivalence in the
null-implies-pending direction. -/
def cancelledPendingSys : Sys :=
  { ride := handleCancelRide 0 0 bookedRide
    driverView := none
    customerView := some cancelled }

theorem claim_C2_counterexample :
    Reachable cancelledPendingSys ∧
    cancelledPendingSys.ride.driver_id = none ∧
    cancelledPendingSys.ride.status ≠ pending := by
  refine ⟨Relation.ReflTransGen.single ?_, rfl, by decide⟩
  exact Step.cancel 0 0 bookedSys pending rfl (Or.inl rfl)

/-- C2 (corrected): at every reachable state, a pending ride has a null
driver_id, and a null driver_id implies the status is pending or cancelled
— the claimed equivalence fails only because cancelling a pending ride
leaves driver_id null with status cancelled. -/
theorem claim_C2_theorem (s : Sys) (h : Reachable s) :
    (s.ride.status = pending → s.ride.driver_id = none) ∧
    (s.ride.driver_id = none → s.ride.status = pending ∨ s.ride.status = cancelled) := by
  have hinv : RideInv s := by
    induction h with
    | refl => exact rideInv_init
    | tail hr hstep ih => exact rideInv_step ih hstep
  exact ⟨hinv.1, hinv.2.1⟩

/-- C2 witness: the corrected theorem applied at the initial booked state. -/
theorem claim_C2_witness :
    (bookedSys.ride.status = pending → bookedSys.ride.driver_id = none) ∧
    (bookedSys.ride.driver_id = none →
      bookedSys.ride.status = pending ∨ bookedSys.ride.status = cancelled) :=
  claim_C2_theorem bookedSys Relation.ReflTransGen.refl

/-! Claim C3: which status transitions the code actually rejects. -/

/-- State after driver 1 claims the fresh booking. -/
def sClaimed : Sys :=
  { ride := (handleAcceptRide 1 0 bookedRide).1
    driverView := some accepted
    customerView := some pending }

/-- State after the driver advances to arriving. -/
def sArriving : Sys :=
  { ride := updateRideStatus arriving 1 sClaimed.ride
    driverView := some arriving
    customerView := sClaimed.customerView }

/-- State after the driver picks the customer up (in progress). -/
def sStarted : Sys :=
  { ride := updateRideStatus inProgress 2 sArriving.ride
    driverView := some inProgress
    customerView := sArriving.customerView }

/-- State after the customer's view catches up (shows in progress). -/
def sSynced : Sys :=
  { sStarted with customerView := some sStarted.ride.status }

/-- State after the customer cancels the in-progress ride; the driver's
view still shows in progress. -/
def sCancelled : Sys :=
  { ride := handleCancelRide 0 3 sSynced.ride
    driverView := sSynced.driverView
    customerView := some cancelled }

/-- State after the stale driver client completes the cancelled ride. -/
def sOverwritten : Sys :=
  { ride := updateRideStatus completed 4 sCancelled.ride
    driverView := some completed
    customerView := sCancelled.customerView }

/-- C3 counterexample: because updateRideStatus writes the target status
unconditionally (only the ride id is matched), a driver whose client still
shows in_progress completes a ride the customer has just cancelled: the
reachable cancelled state steps to completed, so a terminal status does
change again and the cancelled-to-completed transition, absent from the
table, is not rejected. -/
theorem claim_C3_counterexample :
    Reachable sCancelled ∧ Step sCancelled sOverwritten ∧
    sCancelled.ride.status = cancelled ∧ sOverwritten.ride.status = completed := by
  refine ⟨?_, ?_, rfl, rfl⟩
  · have t1 : Step bookedSys sClaimed := Step.claim 1 0 bookedSys rfl
    have t2 : Step sClaimed sArriving := Step.advance 1 sClaimed accepted arriving rfl rfl
    have t3 : Step sArriving sStarted := Step.advance 2 sArriving arriving inProgress rfl rfl
    have t4 : Step sStarted sSynced := Step.customerSync sStarted
    have t5 : Step sSynced sCancelled :=
      Step.cancel 0 3 sSynced inProgress rfl (Or.inr (Or.inr (Or.inr rfl)))
    exact Relation.ReflTransGen.head t1 (Relation.ReflTransGen.head t2
      (Relation.ReflTransGen.head t3 (Relation.ReflTransGen.head t4
        (Relation.ReflTransGen.single t5))))
  · exact Step.advance 4 sCancelled inProgress completed rfl rfl

/-- C3 (corrected): only the pending-to-accepted claim is guarded by a
conditional update; the advance and cancel writes are guarded solely by the
issuing client's local view.  Hence the table is respected exactly when the
acting clients' views are current: every step taken from a state whose
driver and customer views agree with the persisted status either leaves the
status unchanged or moves it along a table transition (claim, the driver
chain, or a cancellation from a non-terminal status); with a stale view,
unlisted transitions such as cancelled-to-completed are possible (see the
counterexample). -/
theorem claim_C3_theorem (s s2 : Sys) (hstep : Step s s2)
    (hdv : s.driverView = none ∨ s.driverView = some s.ride.status)
    (hcv : s.customerView = none ∨ s.customerView = some s.ride.status) :
    s2.ride.status = s.ride.status ∨ allowedTransition s.ride.status s2.ride.status := by
  cases hstep with
  | claim d t s hp =>
    right
    left
    exact ⟨hp, by simp [handleAcceptRide, hp]⟩
  | driverSync s => left; rfl
  | customerSync s => left; rfl
  | advance t s v tgt hv ha =>
    rcases hdv with h0 | h0
    · rw [h0] at hv; simp at hv
    · rw [h0] at hv
      have hv2 : s.ride.status = v := by injection hv
      right
      rw [hv2]
      show allowedTransition v (updateRideStatus tgt t s.ride).status
      have hst : (updateRideStatus tgt t s.ride).status = tgt := rfl
      rw [hst]
      cases v <;> simp [getNextAction] at ha <;> subst ha <;>
        simp [allowedTransition]
  | cancel fee t s v hv hc =>
    rcases hcv with h0 | h0
    · rw [h0] at hv; simp at hv
    · rw [h0] at hv
      have hv2 : s.ride.status = v := by injection hv
      right
      right; right; right; right
      refine ⟨?_, ?_, by simp [handleCancelRide]⟩
      · rw [hv2]
        rcases hc with h | h | h | h <;> rw [h] <;> decide
      · rw [hv2]
        rcases hc with h | h | h | h <;> rw [h] <;> decide

/-- C3 witness: the corrected theorem applied to a concrete step with
current views (a customer view refresh on the fresh booking). -/
theorem claim_C3_witness :
    ({ bookedSys with customerView := some bookedSys.ride.status } : Sys).ride.status =
      bookedSys.ride.status ∨
    allowedTransition bookedSys.ride.status
      ({ bookedSys with customerView := some bookedSys.ride.status } : Sys).ride.status :=
  claim_C3_theorem bookedSys _ (Step.customerSync bookedSys) (Or.inl rfl) (Or.inr rfl)

/-! Claim C9: the nearby-drivers finder. -/

lemma mem_driversWithDistance {locations : List DriverEntry} {excl : List ℕ}
    {e : DriverEntry} :
    e ∈ driversWithDistance locations excl ↔ e ∈ locations ∧ e.driver_id ∉ excl := by
  unfold driversWithDistance
  rw [List.mem_mergeSort, List.mem_filter]
  simp

lemma sorted_driversWithDistance (locations : List DriverEntry) (excl : List ℕ) :
    List.Pairwise (fun a b => distOr999 a ≤ distOr999 b)
      (driversWithDistance locations excl) := by
  unfold driversWithDistance
  have h := @List.sorted_mergeSort DriverEntry
    (fun a b : DriverEntry => decide (distOr999 a ≤ distOr999 b))
    (fun a b c h1 h2 => by
      simp only [decide_eq_true_eq] at h1 h2 ⊢
      exact le_trans h1 h2)
    (fun a b => by
      simpa using le_total (distOr999 a) (distOr999 b))
    (locations.filter (fun e => !(excl.contains e.driver_id)))
  exact h.imp (by intro a b hb; simpa using hb)

unseal List.merge List.mergeSort in
/-- C9 counterexample: distance 0 is falsy, so (distance_km || 999) turns a
driver standing exactly at the pickup into one 999 km away.  With drivers at
0 km and 20 km the returned list is [20 km, 0 km], not ascending by
distance; with drivers at 0 km and 1 km the 0 km driver — within 5 km of
pickup — is not returned at all. -/
theorem claim_C9_counterexample :
    findNearbyDrivers [⟨1, 0⟩, ⟨2, 20⟩] [] = [⟨2, 20⟩, ⟨1, 0⟩] ∧
    ¬ List.Pairwise (fun a b => a.dist ≤ b.dist)
        (findNearbyDrivers [⟨1, 0⟩, ⟨2, 20⟩] []) ∧
    findNearbyDrivers [⟨1, 0⟩, ⟨2, 1⟩] [] = [⟨2, 1⟩] ∧
    (⟨1, 0⟩ : DriverEntry) ∉ findNearbyDrivers [⟨1, 0⟩, ⟨2, 1⟩] [] ∧
    (⟨1, 0⟩ : DriverEntry).dist ≤ 5 := by
  refine ⟨by decide, by decide, by decide, by decide, by norm_num⟩

/-- C9 (corrected): with the effective distance (distance_km || 999) in
place of the distance — the two differ exactly on a driver at 0 km — the
finder behaves as claimed: it returns at most 5 drivers, each an online
driver not in the exclusion list (the exclusion filter runs before every
tier including the final return-all tier), the returned list is sorted
ascending by effective distance, every returned driver is within 5 km
effective when any eligible driver is, and within 15 km effective when no
eligible driver is within 5 km but one is within 15 km. -/
theorem claim_C9_theorem (locations : List DriverEntry) (excl : List ℕ) :
    (findNearbyDrivers locations excl).length ≤ 5 ∧
    (∀ e ∈ findNearbyDrivers locations excl, e ∈ locations ∧ e.driver_id ∉ excl) ∧
    List.Pairwise (fun a b => distOr999 a ≤ distOr999 b)
      (findNearbyDrivers locations excl) ∧
    ((∃ e ∈ locations, e.driver_id ∉ excl ∧ distOr999 e ≤ 5) →
      ∀ e ∈ findNearbyDrivers locations excl, distOr999 e ≤ 5) ∧
    ((¬ ∃ e ∈ locations, e.driver_id ∉ excl ∧ distOr999 e ≤ 5) →
      (∃ e ∈ locations, e.driver_id ∉ excl ∧ distOr999 e ≤ 15) →
      ∀ e ∈ findNearbyDrivers locations excl, distOr999 e ≤ 15) := by
  have hsub : ∀ e ∈ findNearbyDrivers locations excl,
      e ∈ driversWithDistance locations excl := by
    intro e he
    simp only [findNearbyDrivers] at he
    replace he := List.take_subset _ _ he
    split_ifs at he
    · exact he
    · exact List.mem_of_mem_filter he
    · exact List.mem_of_mem_filter he
  refine ⟨?_, ?_, ?_, ?_, ?_⟩
  · simp only [findNearbyDrivers]
    exact List.length_take_le _ _
  · intro e he
    exact mem_driversWithDistance.mp (hsub e he)
  · have hs := sorted_driversWithDistance locations excl
    simp only [findNearbyDrivers]
    apply List.Pairwise.sublist (List.take_sublist _ _)
    split_ifs
    · exact hs
    · exact List.Pairwise.sublist (List.filter_sublist _) hs
    · exact List.Pairwise.sublist (List.filter_sublist _) hs
  · rintro ⟨w, hwloc, hwexcl, hw5⟩ e he
    have hwt1 : w ∈ (driversWithDistance locations excl).filter
        (fun x => distOr999 x ≤ 5) :=
      List.mem_filter.mpr ⟨mem_driversWithDistance.mpr ⟨hwloc, hwexcl⟩, by simpa using hw5⟩
    have ht1 : ¬((driversWithDistance locations excl).filter
        (fun x => distOr999 x ≤ 5)).isEmpty = true := by
      rw [List.isEmpty_iff]
      exact List.ne_nil_of_mem hwt1
    simp only [findNearbyDrivers] at he
    rw [if_neg ht1] at he
    replace he := List.take_subset _ _ he
    simpa using (List.mem_filter.mp he).2
  · intro hno5 hex15 e he
    obtain ⟨w, hwloc, hwexcl, hw15⟩ := hex15
    have ht1 : ((driversWithDistance locations excl).filter
        (fun x => distOr999 x ≤ 5)).isEmpty = true := by
      rw [List.isEmpty_iff, List.eq_nil_iff_forall_not_mem]
      intro x hx
      obtain ⟨hxdw, hx5⟩ := List.mem_filter.mp hx
      obtain ⟨hxloc, hxexcl⟩ := mem_driversWithDistance.mp hxdw
      exact hno5 ⟨x, hxloc, hxexcl, by simpa using hx5⟩
    have hwt2 : w ∈ (driversWithDistance locations excl).filter
        (fun x => distOr999 x ≤ 15) :=
      List.mem_filter.mpr ⟨mem_driversWithDistance.mpr ⟨hwloc, hwexcl⟩, by simpa using hw15⟩
    have ht2 : ¬((driversWithDistance locations excl).filter
        (fun x => distOr999 x ≤ 15)).isEmpty = true := by
      rw [List.isEmpty_iff]
      exact List.ne_nil_of_mem hwt2
    simp only [findNearbyDrivers] at he
    rw [if_pos ht1, if_neg ht2] at he
    replace he := List.take_subset _ _ he
    simpa using (List.mem_filter.mp he).2

/-- C9 witness: the corrected theorem at a single online driver 3 km from
pickup: at most 5 results and everything returned is within the 5 km
tier. -/
theorem claim_C9_witness :
    (findNearbyDrivers [⟨1, 3⟩] []).length ≤ 5 ∧
    ∀ e ∈ findNearbyDrivers [⟨1, 3⟩] [], distOr999 e ≤ 5 :=
  ⟨(claim_C9_theorem [⟨1, 3⟩] []).1,
   (claim_C9_theorem [⟨1, 3⟩] []).2.2.2.1
     ⟨⟨1, 3⟩, by simp, by simp, by norm_num [distOr999]⟩⟩

end FairRide
